import Mathlib

/-!
Verification development for the tool-invocation core of the blog-radar
repository (src/agent.py): a minimal MCP (JSON-RPC over subprocess stdio)
client (`MCPClient`) and a bounded tool-calling conversation loop
(`Agent.chat_with_tools`).

The Python source is shallowly embedded:

* Incoming traffic on the client's single response queue is a `List RpcMsg`
  (the messages that arrive, in order, before the blocking `get` calls give
  up with `queue.Empty`; an exhausted list models the timeout).
* The blocking synchronous waiting loops in `call_tool` and `list_tools`
  (`while True: get(); if id matches: break`) become `MCPClient.findResponse`.
* The OpenAI chat-completions endpoint is an oracle function from the
  message history (and the optional tools argument) to a completion.
* The `while turn < max_turns` loop of `chat_with_tools` is fuel recursion
  with fuel = `max_turns - turn`; the `ChatOutcome` structure additionally
  records the final value of the local variable `turn` and the number of
  completion-endpoint invocations, which are real events of the source.
-/

/-- One typed content block of a `tools/call` result
(an element of `response["result"]["content"]` in src/agent.py). -/
structure ContentBlock where
  type : String
  text : String
deriving DecidableEq, Repr

/-- One tool descriptor of a `tools/list` result
(an element of `response["result"]["tools"]`). -/
structure ToolInfo where
  name : String
  description : String
deriving DecidableEq, Repr

/-- A decoded JSON-RPC message as the Python dict is consumed by
`MCPClient`: `msg.get("id")` is `id?` (`none` for a notification),
presence of the `"error"` key is `error?` (carrying `error["message"]`),
`result.get("content", [])` is `resultContent`, and
`result.get("tools", [])` is `resultTools`. -/
structure RpcMsg where
  id? : Option Int
  error? : Option String
  resultContent : List ContentBlock := []
  resultTools : List ToolInfo := []
deriving DecidableEq, Repr

/-- Embeds the synchronous waiting loop shared by `MCPClient.call_tool`
(src/agent.py lines 171-179) and `MCPClient.list_tools` (lines 138-145):
repeatedly `get` a message from the response queue, breaking on the first
one whose `id` equals the request id and dropping every other message;
an exhausted stream is the `queue.Empty` timeout (`none`). -/
def MCPClient.findResponse (reqId : Int) : List RpcMsg → Option RpcMsg
  | [] => none
  | m :: rest =>
    if m.id? = some reqId then some m else MCPClient.findResponse reqId rest

/-- Embeds the text extraction of `MCPClient.call_tool` (line 185):
`"\n".join([c["text"] for c in content if c["type"] == "text"])`. -/
def MCPClient.extractText (content : List ContentBlock) : String :=
  String.intercalate "\n"
    ((content.filter fun c => c.type = "text").map ContentBlock.text)

/-- Embeds `MCPClient.call_tool` (src/agent.py lines 154-187) after the
request with id `reqId` has been sent, as a function of the incoming
message stream: wait for the matching response (timeout if none arrives),
surface a remote error as an `"Error: ..."` string, otherwise concatenate
the textual content blocks. -/
def MCPClient.call_tool (reqId : Int) (incoming : List RpcMsg) : String :=
  match MCPClient.findResponse reqId incoming with
  | none => "Error: Tool execution timed out."
  | some resp =>
    match resp.error? with
    | some emsg => "Error: " ++ emsg
    | none => MCPClient.extractText resp.resultContent

/-- Embeds `MCPClient.list_tools` (src/agent.py lines 131-152) after the
`tools/list` request with id `reqId` has been sent: wait for the matching
response; on timeout or on a remote error log and return the empty list,
otherwise return the advertised tools. -/
def MCPClient.list_tools (reqId : Int) (incoming : List RpcMsg) : List ToolInfo :=
  match MCPClient.findResponse reqId incoming with
  | none => []
  | some resp =>
    match resp.error? with
    | some _ => []
    | none => resp.resultTools

/-- Embeds `MCPClient._read_loop` (src/agent.py lines 54-70) over the
sequence of lines read from the child's stdout before EOF, with the JSON
decoder abstracted as `parse` (`json.loads` returning `none` on
`json.JSONDecodeError`): a line that parses is put on the response queue,
a line that does not is logged and discarded. -/
def MCPClient.read_loop (parse : String → Option RpcMsg) : List String → List RpcMsg
  | [] => []
  | line :: rest =>
    match parse line with
    | some msg => msg :: MCPClient.read_loop parse rest
    | none => MCPClient.read_loop parse rest

/-- The three request-issuing operations of `MCPClient`; each executes
`req_id = self.request_id; self.request_id += 1` before sending
(src/agent.py lines 103-105, 132-133, 154-156). -/
inductive MCPOp where
  | initReq
  | listToolsReq
  | callToolReq (name : String)
deriving DecidableEq, Repr

/-- The request ids issued by a sequence of `MCPClient` operations starting
from counter value `rid` (the counter starts at 0 in `__init__`): every
operation uses the current counter as its id and increments the counter. -/
def MCPClient.issuedIds : Int → List MCPOp → List Int
  | _, [] => []
  | rid, _ :: ops => rid :: MCPClient.issuedIds (rid + 1) ops

mutual

/-- A JSON value, as handed to `json.dumps` by `MCPClient._send`. -/
inductive Json where
  | null : Json
  | bool (b : Bool) : Json
  | num (n : Int) : Json
  | str (s : String) : Json
  | arr (elems : JsonList) : Json
  | obj (fields : JsonFields) : Json
deriving DecidableEq, Repr

/-- The elements of a JSON array. -/
inductive JsonList where
  | nil : JsonList
  | cons (hd : Json) (tl : JsonList) : JsonList
deriving DecidableEq, Repr

/-- The key-value pairs of a JSON object. -/
inductive JsonFields where
  | nil : JsonFields
  | cons (key : String) (val : Json) (tl : JsonFields) : JsonFields
deriving DecidableEq, Repr

end

/-- JSON string escaping as performed by `json.dumps`, restricted to the
escapes that matter for line framing: the backslash, the double quote and
the control characters newline, carriage return and tab are replaced by
two-character escape sequences; every other character stands for itself. -/
def escapeChar (c : Char) : String :=
  if c = '\\' then "\\\\"
  else if c = '"' then "\\\""
  else if c = '\n' then "\\n"
  else if c = '\r' then "\\r"
  else if c = '\t' then "\\t"
  else String.singleton c

/-- Escape every character of a string (list form). -/
def escapeChars : List Char → String
  | [] => ""
  | c :: cs => escapeChar c ++ escapeChars cs

/-- Escape every character of a string. -/
def escapeString (s : String) : String :=
  escapeChars s.data

/-- One decimal digit as a character. -/
def digitChar (d : Nat) : Char :=
  if d = 0 then '0'
  else if d = 1 then '1'
  else if d = 2 then '2'
  else if d = 3 then '3'
  else if d = 4 then '4'
  else if d = 5 then '5'
  else if d = 6 then '6'
  else if d = 7 then '7'
  else if d = 8 then '8'
  else '9'

/-- Decimal digits of a natural number, most significant first. -/
def natToDigits (n : Nat) : List Char :=
  if _h : n < 10 then [digitChar n]
  else natToDigits (n / 10) ++ [digitChar (n % 10)]
decreasing_by exact Nat.div_lt_self (by omega) (by omega)

/-- Decimal rendering of an integer, as `json.dumps` prints it. -/
def intToStr (n : Int) : String :=
  if n < 0 then "-" ++ String.mk (natToDigits n.natAbs)
  else String.mk (natToDigits n.natAbs)

mutual

/-- Embeds `json.dumps(message)` as called by `MCPClient._send`
(src/agent.py line 73) with the default separators: the serialized form is
a single line because every control character inside strings is escaped. -/
def Json.serialize : Json → String
  | .null => "null"
  | .bool true => "true"
  | .bool false => "false"
  | .num n => intToStr n
  | .str s => "\"" ++ escapeString s ++ "\""
  | .arr xs => "[" ++ JsonList.serialize xs ++ "]"
  | .obj fs => "\x7b" ++ JsonFields.serialize fs ++ "\x7d"

/-- Serialize the elements of a JSON array, separated by `", "`. -/
def JsonList.serialize : JsonList → String
  | .nil => ""
  | .cons h t => Json.serialize h ++ JsonList.serializeTail t

/-- Serialize the remaining elements of a JSON array, each preceded by
`", "`. -/
def JsonList.serializeTail : JsonList → String
  | .nil => ""
  | .cons h t => ", " ++ Json.serialize h ++ JsonList.serializeTail t

/-- Serialize the fields of a JSON object, separated by `", "`. -/
def JsonFields.serialize : JsonFields → String
  | .nil => ""
  | .cons k v t =>
    "\"" ++ escapeString k ++ "\": " ++ Json.serialize v ++
      JsonFields.serializeTail t

/-- Serialize the remaining fields of a JSON object, each preceded by
`", "`. -/
def JsonFields.serializeTail : JsonFields → String
  | .nil => ""
  | .cons k v t =>
    ", " ++ "\"" ++ escapeString k ++ "\": " ++ Json.serialize v ++
      JsonFields.serializeTail t

end

/-- The error raised by a write to a closed pipe (`BrokenPipeError`),
which the spec's taxonomy calls `TransportError`. -/
inductive TransportError where
  | brokenPipe
deriving DecidableEq, Repr

/-- A write to the child's stdin: succeeds with the written text while the
pipe is open, raises `BrokenPipeError` once the stream is closed. -/
def pipeWrite (stdinOpen : Bool) (line : String) : Except TransportError String :=
  if stdinOpen then .ok line else .error .brokenPipe

/-- Embeds `MCPClient._send` (src/agent.py lines 72-79): serialize the
message with `json.dumps`, write it followed by `"\n"` and flush. The
`except BrokenPipeError` handler only logs, so the function returns
normally in both cases: `.ok (some line)` when `line` was written and
flushed, `.ok none` when the broken pipe was caught and logged; the
`.error` constructor of the result type is never produced. -/
def MCPClient.send (stdinOpen : Bool) (message : Json) :
    Except TransportError (Option String) :=
  match pipeWrite stdinOpen (Json.serialize message ++ "\n") with
  | .ok line => .ok (some line)
  | .error _ => .ok none

/-- One tool invocation requested by the model (an element of
`msg.tool_calls` in src/agent.py): its id, the function name and the raw
JSON argument string. -/
structure ToolCallReq where
  id : String
  name : String
  arguments : String
deriving DecidableEq, Repr

/-- One turn of the conversation history (`messages` in src/agent.py).
`assistant` covers both a plain answer and a tool-call request turn
(`msg.model_dump()`, line 307); `tool` is the result turn appended on
line 322 with keys `role`, `content`, `tool_call_id`. -/
inductive Turn where
  | system (content : String)
  | user (content : String)
  | assistant (content : Option String) (tool_calls : List ToolCallReq)
  | tool (content : String) (tool_call_id : String)
deriving DecidableEq, Repr

/-- The tool-call id carried by a `tool` (ToolResult) turn, if any. -/
def Turn.toolCallId? : Turn → Option String
  | .tool _ tcid => some tcid
  | _ => none

/-- The relevant parts of `completion.choices[0]` returned by the
chat-completions endpoint: the finish reason, the message content and the
requested tool calls. -/
structure Completion where
  finish_reason : String
  content : Option String
  tool_calls : List ToolCallReq
deriving DecidableEq, Repr

/-- One entry of the function schema handed to the chat-completions
endpoint via the `tools` parameter (`get_openai_tools_schema`). -/
structure FunctionSpec where
  name : String
  description : String
deriving DecidableEq, Repr

/-- The observable outcome of `Agent.chat_with_tools`: the returned string
(`none` when the model's final `content` is absent), the final value of the
local `turn` counter, the number of chat-completion invocations made, and
the final state of the `messages` history. -/
structure ChatOutcome where
  result : Option String
  turn : Nat
  modelCalls : Nat
  history : List Turn
deriving DecidableEq, Repr

/-- The ToolResult turns appended during one Executing round for the
requested invocations `calls`, in order (the `for tool_call in
msg.tool_calls` loop, src/agent.py lines 309-328): each carries the MCP
result text and its invocation's id. -/
def toolResults (execTool : ToolCallReq → String) (calls : List ToolCallReq) :
    List Turn :=
  calls.map fun tc => Turn.tool (execTool tc) tc.id

/-- Embeds the `while turn < max_turns` loop of `Agent.chat_with_tools`
(src/agent.py lines 291-342) with fuel = `max_turns - turn`. Each iteration
increments `turn`, invokes the model on the current history; on
`finish_reason == "tool_calls"` it appends the assistant tool-call turn and
one ToolResult turn per requested invocation (in request order, `execTool`
standing for `self.mcp_client.call_tool`) and loops; otherwise it returns
the content. Exhausted fuel is the loop exiting with `turn == max_turns`,
returning the turn-limit error string. -/
def chatLoop (api : List Turn → Completion) (execTool : ToolCallReq → String) :
    Nat → Nat → Nat → List Turn → ChatOutcome
  | 0, turn, calls, msgs =>
    ⟨some "Error: Maximum conversation turns exceeded.", turn, calls, msgs⟩
  | fuel + 1, turn, calls, msgs =>
    let c := api msgs
    if c.finish_reason = "tool_calls" then
      chatLoop api execTool fuel (turn + 1) (calls + 1)
        (msgs ++ [Turn.assistant c.content c.tool_calls] ++
          toolResults execTool c.tool_calls)
    else
      ⟨c.content, turn + 1, calls + 1, msgs⟩

/-- Embeds `Agent.chat` (src/agent.py lines 258-273): a single
chat-completions call on the given history with no `tools` argument
(`none`), returning the message content. -/
def Agent.chat (api : List Turn → Option (List FunctionSpec) → Completion)
    (msgs : List Turn) : Option String :=
  (api msgs none).content

/-- Embeds `Agent.chat_with_tools` (src/agent.py lines 275-342). When MCP
is enabled the bounded tool loop runs with `max_turns = 10`, passing the
tool schema on every model call; otherwise the method logs a warning and
falls back to `Agent.chat` — one plain model call with no tools argument,
no turn of the tool loop, and the history untouched. -/
def Agent.chat_with_tools (api : List Turn → Option (List FunctionSpec) → Completion)
    (mcpEnabled : Bool) (schema : List FunctionSpec)
    (execTool : ToolCallReq → String) (msgs : List Turn) : ChatOutcome :=
  if mcpEnabled then
    chatLoop (fun h => api h (some schema)) execTool 10 0 0 msgs
  else
    ⟨Agent.chat api msgs, 0, 1, msgs⟩

/-! ### Helper lemmas on the response waiting loop -/

theorem MCPClient.findResponse_append_of_forall_ne (reqId : Int)
    (junk rest : List RpcMsg) (hj : ∀ m ∈ junk, m.id? ≠ some reqId) :
    MCPClient.findResponse reqId (junk ++ rest) =
      MCPClient.findResponse reqId rest := by
  induction junk with
  | nil => rfl
  | cons m ms ih =>
    rw [List.cons_append, MCPClient.findResponse,
      if_neg (hj m (List.mem_cons_self m ms))]
    exact ih fun x hx => hj x (List.mem_cons_of_mem m hx)

theorem MCPClient.findResponse_eq_none (reqId : Int) (l : List RpcMsg)
    (h : ∀ m ∈ l, m.id? ≠ some reqId) :
    MCPClient.findResponse reqId l = none := by
  have := MCPClient.findResponse_append_of_forall_ne reqId l [] h
  simpa using this

theorem MCPClient.findResponse_cons_of_eq (reqId : Int) (resp : RpcMsg)
    (rest : List RpcMsg) (h : resp.id? = some reqId) :
    MCPClient.findResponse reqId (resp :: rest) = some resp := by
  rw [MCPClient.findResponse, if_pos h]

theorem MCPClient.read_loop_eq_filterMap (parse : String → Option RpcMsg)
    (lines : List String) :
    MCPClient.read_loop parse lines = lines.filterMap parse := by
  induction lines with
  | nil => rfl
  | cons line rest ih =>
    rw [MCPClient.read_loop, List.filterMap_cons]
    cases parse line <;> simp [ih]

theorem MCPClient.issuedIds_lower_bound (ops : List MCPOp) :
    ∀ (rid x : Int), x ∈ MCPClient.issuedIds rid ops → rid ≤ x := by
  induction ops with
  | nil => intro rid x hx; simp [MCPClient.issuedIds] at hx
  | cons op ops ih =>
    intro rid x hx
    rw [MCPClient.issuedIds] at hx
    rcases List.mem_cons.mp hx with h | h
    · exact le_of_eq h.symm
    · exact le_trans (by omega) (ih (rid + 1) x h)

/-! ### Helper lemmas on the serializer: no newline escapes a string -/

theorem no_newline_append {s t : String} (hs : '\n' ∉ s.data)
    (ht : '\n' ∉ t.data) : '\n' ∉ (s ++ t).data := by
  rw [String.data_append]
  intro h
  rcases List.mem_append.mp h with h | h
  · exact hs h
  · exact ht h

theorem digitChar_ne_newline (d : Nat) : digitChar d ≠ '\n' := by
  unfold digitChar
  repeat' split
  all_goals decide

theorem natToDigits_no_newline (n : Nat) : '\n' ∉ natToDigits n := by
  unfold natToDigits
  split
  · simp only [List.mem_singleton]
    intro h
    exact digitChar_ne_newline n h.symm
  · next hge =>
    intro hmem
    rcases List.mem_append.mp hmem with h | h
    · exact natToDigits_no_newline (n / 10) h
    · rw [List.mem_singleton] at h
      exact digitChar_ne_newline (n % 10) h.symm
termination_by n
decreasing_by exact Nat.div_lt_self (by omega) (by omega)

theorem intToStr_no_newline (n : Int) : '\n' ∉ (intToStr n).data := by
  unfold intToStr
  split
  · exact no_newline_append (by decide) (natToDigits_no_newline n.natAbs)
  · exact natToDigits_no_newline n.natAbs

theorem escapeChar_no_newline (c : Char) : '\n' ∉ (escapeChar c).data := by
  unfold escapeChar
  repeat' split
  case _ => decide
  case _ => decide
  case _ => decide
  case _ => decide
  case _ => decide
  case _ h1 h2 h3 h4 h5 =>
    intro h
    simp only [String.singleton, String.data_push, List.mem_append,
      List.mem_singleton] at h
    rcases h with h | h
    · exact absurd h (by decide)
    · exact h3 h.symm

theorem escapeChars_no_newline (l : List Char) : '\n' ∉ (escapeChars l).data := by
  induction l with
  | nil => decide
  | cons c cs ih => exact no_newline_append (escapeChar_no_newline c) ih

theorem escapeString_no_newline (s : String) : '\n' ∉ (escapeString s).data :=
  escapeChars_no_newline s.data

mutual

theorem Json.serialize_no_newline : ∀ j : Json, '\n' ∉ (Json.serialize j).data
  | .null => by decide
  | .bool b => by cases b <;> decide
  | .num n => intToStr_no_newline n
  | .str s => by
    simp only [Json.serialize]
    exact no_newline_append
      (no_newline_append (by decide) (escapeString_no_newline s)) (by decide)
  | .arr xs => by
    simp only [Json.serialize]
    exact no_newline_append
      (no_newline_append (by decide) (JsonList.elems_no_newline xs))
      (by decide)
  | .obj fs => by
    simp only [Json.serialize]
    exact no_newline_append
      (no_newline_append (by decide) (JsonFields.fields_no_newline fs))
      (by decide)

theorem JsonList.elems_no_newline :
    ∀ xs : JsonList, '\n' ∉ (JsonList.serialize xs).data
  | .nil => by decide
  | .cons h t => by
    simp only [JsonList.serialize]
    exact no_newline_append (Json.serialize_no_newline h)
      (JsonList.elemsTail_no_newline t)

theorem JsonList.elemsTail_no_newline :
    ∀ xs : JsonList, '\n' ∉ (JsonList.serializeTail xs).data
  | .nil => by decide
  | .cons h t => by
    simp only [JsonList.serializeTail]
    exact no_newline_append
      (no_newline_append (by decide) (Json.serialize_no_newline h))
      (JsonList.elemsTail_no_newline t)

theorem JsonFields.fields_no_newline :
    ∀ fs : JsonFields, '\n' ∉ (JsonFields.serialize fs).data
  | .nil => by decide
  | .cons k v t => by
    simp only [JsonFields.serialize]
    exact no_newline_append
      (no_newline_append
        (no_newline_append
          (no_newline_append (by decide) (escapeString_no_newline k))
          (by decide))
        (Json.serialize_no_newline v))
      (JsonFields.fieldsTail_no_newline t)

theorem JsonFields.fieldsTail_no_newline :
    ∀ fs : JsonFields, '\n' ∉ (JsonFields.serializeTail fs).data
  | .nil => by decide
  | .cons k v t => by
    simp only [JsonFields.serializeTail]
    exact no_newline_append
      (no_newline_append
        (no_newline_append
          (no_newline_append
            (no_newline_append (by decide) (by decide))
            (escapeString_no_newline k))
          (by decide))
        (Json.serialize_no_newline v))
      (JsonFields.fieldsTail_no_newline t)

end

/-! ### Claim theorems about the correlation and reader behaviour -/

/-- C2: an incoming message whose id matches no pending request — a stale
response with another id or a notification with no id — is dropped by the
waiting loop of `call_tool`/`list_tools`, and dropping it does not affect
the wait: the outcome over `junk ++ rest` equals the outcome over `rest`
alone, and a caller waiting on `reqId` still receives its own matching
response placed after the junk. -/
theorem unmatched_messages_dropped (reqId : Int) (junk rest : List RpcMsg)
    (hj : ∀ m ∈ junk, m.id? ≠ some reqId) :
    MCPClient.findResponse reqId (junk ++ rest) =
      MCPClient.findResponse reqId rest ∧
    MCPClient.call_tool reqId (junk ++ rest) = MCPClient.call_tool reqId rest ∧
    MCPClient.list_tools reqId (junk ++ rest) = MCPClient.list_tools reqId rest ∧
    ∀ (resp : RpcMsg) (tail : List RpcMsg), resp.id? = some reqId →
      MCPClient.findResponse reqId (junk ++ resp :: tail) = some resp := by
  refine ⟨MCPClient.findResponse_append_of_forall_ne reqId junk rest hj, ?_, ?_, ?_⟩
  · rw [MCPClient.call_tool, MCPClient.call_tool,
      MCPClient.findResponse_append_of_forall_ne reqId junk rest hj]
  · rw [MCPClient.list_tools, MCPClient.list_tools,
      MCPClient.findResponse_append_of_forall_ne reqId junk rest hj]
  · intro resp tail h
    rw [MCPClient.findResponse_append_of_forall_ne reqId junk _ hj,
      MCPClient.findResponse_cons_of_eq reqId resp tail h]

/-- A closed instance of C2: a notification without id and a stale
response with id 5 are both dropped, and the caller waiting on id 7 still
receives its own response. -/
theorem unmatched_messages_dropped_witness :
    MCPClient.findResponse 7
        ([⟨none, none, [], []⟩, ⟨some 5, none, [], []⟩] ++
          ⟨some 7, none, [], []⟩ :: []) =
      some ⟨some 7, none, [], []⟩ :=
  (unmatched_messages_dropped 7 [⟨none, none, [], []⟩, ⟨some 5, none, [], []⟩]
    (⟨some 7, none, [], []⟩ :: []) (by decide)).2.2.2 ⟨some 7, none, [], []⟩ []
    (by decide)

/-- C3: when no message of the incoming stream matches the request id,
`call_tool` returns the timeout error string; the call is over, so a late
response carrying the old id is simply dropped by any later call (ids are
never reused, so the later call waits on a different id); and the
conversation loop appends that error string as the ToolResult content and
proceeds to the next Thinking round. -/
theorem call_tool_timeout_behavior (reqId : Int) (incoming : List RpcMsg)
    (h : ∀ m ∈ incoming, m.id? ≠ some reqId) :
    MCPClient.call_tool reqId incoming = "Error: Tool execution timed out." ∧
    (∀ (late : RpcMsg) (rest : List RpcMsg) (laterId : Int),
      late.id? = some reqId → laterId ≠ reqId →
      MCPClient.call_tool laterId (late :: rest) =
        MCPClient.call_tool laterId rest) ∧
    (∀ (api : List Turn → Completion) (fuel turn calls : Nat)
        (msgs : List Turn) (tc : ToolCallReq),
      (api msgs).finish_reason = "tool_calls" → (api msgs).tool_calls = [tc] →
      chatLoop api (fun _ => MCPClient.call_tool reqId incoming)
          (fuel + 1) turn calls msgs =
        chatLoop api (fun _ => MCPClient.call_tool reqId incoming)
          fuel (turn + 1) (calls + 1)
          (msgs ++ [Turn.assistant (api msgs).content [tc]] ++
            [Turn.tool "Error: Tool execution timed out." tc.id])) := by
  have htimeout : MCPClient.call_tool reqId incoming =
      "Error: Tool execution timed out." := by
    rw [MCPClient.call_tool, MCPClient.findResponse_eq_none reqId incoming h]
  refine ⟨htimeout, ?_, ?_⟩
  · intro late rest laterId hlate hne
    rw [MCPClient.call_tool, MCPClient.call_tool, MCPClient.findResponse,
      if_neg (by rw [hlate]; simp [hne.symm])]
  · intro api fuel turn calls msgs tc hfr htc
    rw [chatLoop]
    simp only [if_pos hfr, htc, toolResults, List.map_cons, List.map_nil,
      htimeout]

/-- A closed instance of C3: the only incoming message answers id 3, so the
call waiting on id 5 times out with the error string. -/
theorem call_tool_timeout_behavior_witness :
    MCPClient.call_tool 5 [⟨some 3, none, [], []⟩] =
      "Error: Tool execution timed out." :=
  (call_tool_timeout_behavior 5 [⟨some 3, none, [], []⟩] (by decide)).1

/-- C4: across any sequence of id-issuing operations (`_initialize`,
`list_tools`, `call_tool`, in any order and number) starting from any
counter value, the issued request ids are strictly increasing and are
never reused. -/
theorem request_ids_strictly_increasing (rid : Int) (ops : List MCPOp) :
    (MCPClient.issuedIds rid ops).Pairwise (· < ·) ∧
    (MCPClient.issuedIds rid ops).Nodup := by
  have hpw : ∀ (ops' : List MCPOp) (r : Int),
      (MCPClient.issuedIds r ops').Pairwise (· < ·) := by
    intro ops'
    induction ops' with
    | nil => intro r; simp [MCPClient.issuedIds]
    | cons op rest ih =>
      intro r
      rw [MCPClient.issuedIds]
      refine List.Pairwise.cons ?_ (ih (r + 1))
      intro x hx
      exact lt_of_lt_of_le (by omega)
        (MCPClient.issuedIds_lower_bound rest (r + 1) x hx)
  exact ⟨hpw ops rid, (hpw ops rid).imp ne_of_lt⟩

/-- C6: a line from the subprocess that fails to parse as JSON (such as
`not-json`) is dropped by the reader without enqueuing anything and
without affecting the stream seen by any waiting caller, while every line
that parses is forwarded to the queue in order. -/
theorem read_loop_drops_malformed (parse : String → Option RpcMsg)
    (pre post : List String) (bad : String) (hb : parse bad = none) :
    MCPClient.read_loop parse (pre ++ bad :: post) =
      MCPClient.read_loop parse (pre ++ post) ∧
    (∀ lines : List String,
      MCPClient.read_loop parse lines = lines.filterMap parse) ∧
    (∀ reqId : Int,
      MCPClient.findResponse reqId
          (MCPClient.read_loop parse (pre ++ bad :: post)) =
        MCPClient.findResponse reqId (MCPClient.read_loop parse (pre ++ post))) := by
  have hdrop : MCPClient.read_loop parse (pre ++ bad :: post) =
      MCPClient.read_loop parse (pre ++ post) := by
    rw [MCPClient.read_loop_eq_filterMap, MCPClient.read_loop_eq_filterMap,
      List.filterMap_append, List.filterMap_append, List.filterMap_cons, hb]
  exact ⟨hdrop, MCPClient.read_loop_eq_filterMap parse, fun reqId => by rw [hdrop]⟩

/-- A closed instance of C6: with a parser that accepts only the line
`ok`, the malformed line `not-json` contributes nothing to the queue. -/
theorem read_loop_drops_malformed_witness :
    MCPClient.read_loop
        (fun s => if s = "ok" then some ⟨some 1, none, [], []⟩ else none)
        (["ok"] ++ "not-json" :: ["ok"]) =
      MCPClient.read_loop
        (fun s => if s = "ok" then some ⟨some 1, none, [], []⟩ else none)
        (["ok"] ++ ["ok"]) :=
  (read_loop_drops_malformed
    (fun s => if s = "ok" then some ⟨some 1, none, [], []⟩ else none)
    ["ok"] ["ok"] "not-json" (by decide)).1

/-- C8: a successful `tools/call` response with a structured content list
yields exactly the `text` fields of the blocks typed `"text"`, joined with
newlines in list order, and inserting a non-text block anywhere changes
nothing — it is dropped without error. -/
theorem call_tool_extracts_text_blocks (reqId : Int) (junk : List RpcMsg)
    (blocks : List ContentBlock) (advertised : List ToolInfo)
    (hj : ∀ m ∈ junk, m.id? ≠ some reqId) :
    MCPClient.call_tool reqId (junk ++ [⟨some reqId, none, blocks, advertised⟩]) =
      String.intercalate "\n"
        ((blocks.filter fun b => b.type = "text").map ContentBlock.text) ∧
    (∀ (b1 b2 : List ContentBlock) (nb : ContentBlock), nb.type ≠ "text" →
      MCPClient.extractText (b1 ++ nb :: b2) =
        MCPClient.extractText (b1 ++ b2)) := by
  constructor
  · rw [MCPClient.call_tool,
      MCPClient.findResponse_append_of_forall_ne reqId junk _ hj,
      MCPClient.findResponse_cons_of_eq reqId _ [] rfl]
    rfl
  · intro b1 b2 nb hnb
    rw [MCPClient.extractText, MCPClient.extractText,
      List.filter_append, List.filter_append,
      List.filter_cons_of_neg (by simpa using hnb)]

/-- A closed instance of C8: one text block and one image block — only the
text block's payload survives. -/
theorem call_tool_extracts_text_blocks_witness :
    MCPClient.call_tool 2
        ([] ++ [⟨some 2, none, [⟨"text", "hello"⟩, ⟨"image", "blob"⟩], []⟩]) =
      "hello" :=
  (call_tool_extracts_text_blocks 2 [] [⟨"text", "hello"⟩, ⟨"image", "blob"⟩]
    [] (by decide)).1

/-! ### Claim theorems about the transport send path -/

/-- C5 counterexample: with the child's stdin closed, `_send` does not
fail with a `TransportError` — the `except BrokenPipeError` handler logs
the broken pipe and the method returns normally (`.ok none`, nothing
written), contradicting the claim that the call fails. -/
theorem send_broken_pipe_counterexample :
    MCPClient.send false (.obj (.cons "jsonrpc" (.str "2.0") .nil)) =
      Except.ok none := rfl

/-- C5, amended: `_send` serializes the message to single-line JSON (the
serialized text contains no newline) and, while the pipe is open, writes
it followed by exactly one newline and flushes; when the pipe is closed
the raised `BrokenPipeError` is caught and logged and the method returns
normally without writing — it never propagates a transport error. -/
theorem send_single_line_and_swallows_broken_pipe (stdinOpen : Bool) (m : Json) :
    '\n' ∉ (Json.serialize m).data ∧
    (MCPClient.send stdinOpen m).isOk = true ∧
    (stdinOpen = true →
      MCPClient.send stdinOpen m =
        Except.ok (some (Json.serialize m ++ "\n"))) ∧
    (stdinOpen = false → MCPClient.send stdinOpen m = Except.ok none) := by
  refine ⟨Json.serialize_no_newline m, ?_, ?_, ?_⟩ <;>
    cases stdinOpen <;> simp [MCPClient.send, pipeWrite, Except.isOk, Except.toBool]

/-- A closed instance of the amended C5: the message
`{"jsonrpc": "2.0"}` is written as one line ending in a newline. -/
theorem send_single_line_witness :
    MCPClient.send true (.obj (.cons "jsonrpc" (.str "2.0") .nil)) =
      Except.ok (some
        (Json.serialize (.obj (.cons "jsonrpc" (.str "2.0") .nil)) ++ "\n")) :=
  (send_single_line_and_swallows_broken_pipe true
    (.obj (.cons "jsonrpc" (.str "2.0") .nil))).2.2.1 rfl

/-! ### Helper lemmas on the conversation loop -/

theorem chatLoop_turn_le (api : List Turn → Completion)
    (execTool : ToolCallReq → String) :
    ∀ (fuel turn calls : Nat) (msgs : List Turn),
      (chatLoop api execTool fuel turn calls msgs).turn ≤ turn + fuel ∧
      (chatLoop api execTool fuel turn calls msgs).modelCalls ≤ calls + fuel := by
  intro fuel
  induction fuel with
  | zero => intro turn calls msgs; simp [chatLoop]
  | succ n ih =>
    intro turn calls msgs
    rw [chatLoop]
    by_cases hfr : (api msgs).finish_reason = "tool_calls"
    · rw [if_pos hfr]
      have := ih (turn + 1) (calls + 1)
        (msgs ++ [Turn.assistant (api msgs).content (api msgs).tool_calls] ++
          toolResults execTool (api msgs).tool_calls)
      omega
    · rw [if_neg hfr]
      simp only
      omega

theorem chatLoop_always_tools (api : List Turn → Completion)
    (execTool : ToolCallReq → String)
    (h : ∀ hist, (api hist).finish_reason = "tool_calls") :
    ∀ (fuel turn calls : Nat) (msgs : List Turn),
      (chatLoop api execTool fuel turn calls msgs).result =
        some "Error: Maximum conversation turns exceeded." ∧
      (chatLoop api execTool fuel turn calls msgs).turn = turn + fuel ∧
      (chatLoop api execTool fuel turn calls msgs).modelCalls = calls + fuel := by
  intro fuel
  induction fuel with
  | zero => intro turn calls msgs; simp [chatLoop]
  | succ n ih =>
    intro turn calls msgs
    rw [chatLoop, if_pos (h msgs)]
    have := ih (turn + 1) (calls + 1)
      (msgs ++ [Turn.assistant (api msgs).content (api msgs).tool_calls] ++
        toolResults execTool (api msgs).tool_calls)
    exact ⟨this.1, by omega, by omega⟩

theorem chatLoop_history_extends (api : List Turn → Completion)
    (execTool : ToolCallReq → String) :
    ∀ (fuel turn calls : Nat) (msgs : List Turn),
      msgs <+: (chatLoop api execTool fuel turn calls msgs).history := by
  intro fuel
  induction fuel with
  | zero => intro turn calls msgs; simp [chatLoop]
  | succ n ih =>
    intro turn calls msgs
    rw [chatLoop]
    by_cases hfr : (api msgs).finish_reason = "tool_calls"
    · rw [if_pos hfr]
      have h1 : msgs <+:
          msgs ++ [Turn.assistant (api msgs).content (api msgs).tool_calls] ++
            toolResults execTool (api msgs).tool_calls := by
        rw [List.append_assoc]
        exact List.prefix_append msgs _
      exact h1.trans (ih (turn + 1) (calls + 1) _)
    · rw [if_neg hfr]

theorem chatLoop_final_answer (api : List Turn → Completion)
    (execTool : ToolCallReq → String) (fuel turn calls : Nat)
    (msgs : List Turn) (hfr : (api msgs).finish_reason ≠ "tool_calls") :
    chatLoop api execTool (fuel + 1) turn calls msgs =
      ⟨(api msgs).content, turn + 1, calls + 1, msgs⟩ := by
  rw [chatLoop, if_neg hfr]

/-! ### Claim theorems about the conversation loop -/

/-- C1: with MCP enabled, `chat_with_tools` makes at most `max_turns = 10`
model rounds whatever the model does; and if the model requests tool calls
on every round, after exactly 10 rounds (never an 11th) it returns the
turn-limit error string instead of a model answer. -/
theorem chat_with_tools_turn_limit
    (api : List Turn → Option (List FunctionSpec) → Completion)
    (schema : List FunctionSpec) (execTool : ToolCallReq → String)
    (msgs : List Turn) :
    (Agent.chat_with_tools api true schema execTool msgs).turn ≤ 10 ∧
    (Agent.chat_with_tools api true schema execTool msgs).modelCalls ≤ 10 ∧
    ((∀ hist, (api hist (some schema)).finish_reason = "tool_calls") →
      (Agent.chat_with_tools api true schema execTool msgs).result =
        some "Error: Maximum conversation turns exceeded." ∧
      (Agent.chat_with_tools api true schema execTool msgs).turn = 10 ∧
      (Agent.chat_with_tools api true schema execTool msgs).modelCalls = 10) := by
  have hb := chatLoop_turn_le (fun h => api h (some schema)) execTool 10 0 0 msgs
  refine ⟨?_, ?_, ?_⟩
  · simpa [Agent.chat_with_tools] using hb.1
  · simpa [Agent.chat_with_tools] using hb.2
  · intro hall
    have he := chatLoop_always_tools (fun h => api h (some schema)) execTool
      hall 10 0 0 msgs
    refine ⟨?_, ?_, ?_⟩
    · simpa [Agent.chat_with_tools] using he.1
    · simpa [Agent.chat_with_tools] using he.2.1
    · simpa [Agent.chat_with_tools] using he.2.2

/-- A closed instance of C1: a model that always requests the `echo` tool
is cut off after exactly 10 rounds with the turn-limit error string. -/
theorem chat_with_tools_turn_limit_witness :
    (Agent.chat_with_tools
        (fun _ _ => ⟨"tool_calls", none, [⟨"c1", "echo", ""⟩]⟩) true []
        (fun _ => "ok") [Turn.user "hi"]).result =
      some "Error: Maximum conversation turns exceeded." ∧
    (Agent.chat_with_tools
        (fun _ _ => ⟨"tool_calls", none, [⟨"c1", "echo", ""⟩]⟩) true []
        (fun _ => "ok") [Turn.user "hi"]).turn = 10 :=
  ⟨((chat_with_tools_turn_limit
      (fun _ _ => ⟨"tool_calls", none, [⟨"c1", "echo", ""⟩]⟩) []
      (fun _ => "ok") [Turn.user "hi"]).2.2 fun _ => rfl).1,
   ((chat_with_tools_turn_limit
      (fun _ _ => ⟨"tool_calls", none, [⟨"c1", "echo", ""⟩]⟩) []
      (fun _ => "ok") [Turn.user "hi"]).2.2 fun _ => rfl).2.1⟩

/-- C7: when the model requests several tool invocations in one round, the
ToolResult turns appended for that round are one per invocation, in
request order, each carrying its invocation's id; the round appends the
assistant tool-call turn followed by exactly those ToolResult turns, and
that extended transcript is a prefix of the loop's final history. -/
theorem tool_results_follow_request_order (api : List Turn → Completion)
    (execTool : ToolCallReq → String) (fuel turn calls : Nat)
    (msgs : List Turn) (hfr : (api msgs).finish_reason = "tool_calls") :
    (toolResults execTool (api msgs).tool_calls).map Turn.toolCallId? =
      (api msgs).tool_calls.map (fun tc => some tc.id) ∧
    (toolResults execTool (api msgs).tool_calls).length =
      (api msgs).tool_calls.length ∧
    chatLoop api execTool (fuel + 1) turn calls msgs =
      chatLoop api execTool fuel (turn + 1) (calls + 1)
        (msgs ++ [Turn.assistant (api msgs).content (api msgs).tool_calls] ++
          toolResults execTool (api msgs).tool_calls) ∧
    (msgs ++ [Turn.assistant (api msgs).content (api msgs).tool_calls] ++
        toolResults execTool (api msgs).tool_calls) <+:
      (chatLoop api execTool (fuel + 1) turn calls msgs).history := by
  have hstep : chatLoop api execTool (fuel + 1) turn calls msgs =
      chatLoop api execTool fuel (turn + 1) (calls + 1)
        (msgs ++ [Turn.assistant (api msgs).content (api msgs).tool_calls] ++
          toolResults execTool (api msgs).tool_calls) := by
    rw [chatLoop, if_pos hfr]
  refine ⟨?_, ?_, hstep, ?_⟩
  · simp [toolResults, Turn.toolCallId?]
  · simp [toolResults]
  · rw [hstep]
    exact chatLoop_history_extends api execTool fuel (turn + 1) (calls + 1) _

/-- A closed instance of C7: two invocations with ids `a` and `b` yield
ToolResult turns carrying `a` then `b`, in request order. -/
theorem tool_results_follow_request_order_witness :
    (toolResults (fun tc => tc.name)
        [⟨"a", "t1", ""⟩, ⟨"b", "t2", ""⟩]).map Turn.toolCallId? =
      [some "a", some "b"] :=
  (tool_results_follow_request_order
    (fun _ => ⟨"tool_calls", none, [⟨"a", "t1", ""⟩, ⟨"b", "t2", ""⟩]⟩)
    (fun tc => tc.name) 0 0 0 [] rfl).1

/-- C9: if the first Thinking round produces a final answer (finish reason
not `tool_calls`) with content, `chat_with_tools` returns that text at
once: one model invocation, turn counter 1, history untouched. -/
theorem first_round_final_answer
    (api : List Turn → Option (List FunctionSpec) → Completion)
    (schema : List FunctionSpec) (execTool : ToolCallReq → String)
    (msgs : List Turn) (text : String)
    (hfr : (api msgs (some schema)).finish_reason ≠ "tool_calls")
    (hc : (api msgs (some schema)).content = some text) :
    Agent.chat_with_tools api true schema execTool msgs =
      ⟨some text, 1, 1, msgs⟩ := by
  have h10 : (10 : Nat) = 9 + 1 := rfl
  rw [Agent.chat_with_tools, if_pos rfl, h10,
    chatLoop_final_answer (fun h => api h (some schema)) execTool 9 0 0 msgs hfr,
    hc]

/-- A closed instance of C9: a model that answers `42` immediately gives
result `42`, turn counter 1, one model call, unchanged history. -/
theorem first_round_final_answer_witness :
    Agent.chat_with_tools (fun _ _ => ⟨"stop", some "42", []⟩) true []
        (fun _ => "r") [Turn.user "q"] =
      ⟨some "42", 1, 1, [Turn.user "q"]⟩ :=
  first_round_final_answer (fun _ _ => ⟨"stop", some "42", []⟩) [] (fun _ => "r")
    [Turn.user "q"] "42" (by decide) rfl

/-- C10: with MCP not enabled, `chat_with_tools` performs no tool round:
it returns exactly what `chat` returns on the same messages (one plain
model call with no tools argument), appends nothing to the history, and
its outcome does not depend on the tool schema or the tool executor. -/
theorem chat_with_tools_fallback
    (api : List Turn → Option (List FunctionSpec) → Completion)
    (schema schema' : List FunctionSpec)
    (execTool execTool' : ToolCallReq → String) (msgs : List Turn) :
    (Agent.chat_with_tools api false schema execTool msgs).result =
      Agent.chat api msgs ∧
    (Agent.chat_with_tools api false schema execTool msgs).history = msgs ∧
    (Agent.chat_with_tools api false schema execTool msgs).turn = 0 ∧
    (Agent.chat_with_tools api false schema execTool msgs).modelCalls = 1 ∧
    Agent.chat_with_tools api false schema execTool msgs =
      Agent.chat_with_tools api false schema' execTool' msgs := by
  simp [Agent.chat_with_tools]
